import Mathlib

/-!
Shallow embedding of the page-store state management of
`src/src/components/NotionClone.tsx` (a single-page note-taking app:
a collection of pages persisted as JSON to one localStorage slot),
together with theorems settling the specification claims.

The block type of the rich-text editor is opaque; everything is
parametric in a type `β` of blocks.  JavaScript-level partiality is
modelled explicitly: a `content` field read back from storage may be any
JS value (array or not, falsy or not), and `id`/`title` fields may be
missing or empty, since `JSON.parse` gives no guarantees.
-/

namespace NoteClone

/-- A JavaScript value sitting in a `content` field: either a genuine JS
array of blocks, or a non-array value carrying its JS truthiness
(`CVal.nonArr true` covers `undefined`/`null` and other falsy values). -/
inductive CVal (β : Type) where
  | arr : List β → CVal β
  | nonArr : Bool → CVal β
  deriving DecidableEq

/-- The `Array.isArray` test on a `content` value. -/
def CVal.isArr {β : Type} : CVal β → Bool
  | .arr _ => true
  | .nonArr _ => false

/-- JS falsiness of a `content` value (a real array is always truthy). -/
def CVal.jsFalsy {β : Type} : CVal β → Bool
  | .arr _ => false
  | .nonArr f => f

/-- The `Page` type of the component: `{ id: string; title: string;
content: Block[] }`.  The `content` field is kept as a raw JS value so
that "content is always an array" is a provable invariant rather than a
typing artifact. -/
structure Page (β : Type) where
  id : String
  title : String
  content : CVal β
  deriving DecidableEq

/-- A record of the persisted JSON array as `JSON.parse` hands it back:
`id` and `title` may be missing (or present but empty, which is equally
falsy in JS), and `content` may be any JS value. -/
structure RawPage (β : Type) where
  id : Option String := none
  title : Option String := none
  content : CVal β := CVal.nonArr true
  deriving DecidableEq

/-- JS `x || d` for a string field that may be missing: `undefined`,
`null` and `""` are falsy and select the default. -/
def jsOrStr : Option String → String → String
  | none, d => d
  | some s, d => if s = "" then d else s

/-- What the single storage slot (`STORAGE_KEY`) can hold once read and
parsed: a JSON array of page-like records, some other JSON value, or a
string on which `JSON.parse` throws. -/
inductive StoredVal (β : Type) where
  | arr : List (RawPage β) → StoredVal β
  | nonArray : StoredVal β
  | malformed : StoredVal β
  deriving DecidableEq

/-- The component state: the `pages` list, the `currentPageId` selection
(`null` or a page id), the `isLoading` ref, and the storage slot
(`none` = no value under the key). -/
structure AppState (β : Type) where
  pages : List (Page β)
  currentPageId : Option String
  isLoading : Bool
  storage : Option (StoredVal β)
  deriving DecidableEq

/-- The id string `Date.now().toString()` for a millisecond timestamp `now`. -/
def timestampId (now : Nat) : String := toString now

/-- The function `createNewPage(title)`: fresh timestamp id, `title || "Untitled"`,
empty content. -/
def createNewPage {β : Type} (now : Nat) (title : String) : Page β :=
  { id := timestampId now
    title := if title = "" then "Untitled" else title
    content := CVal.arr [] }

/-- Serialization (`JSON.stringify`) of one well-typed page, as it reads back. -/
def pageToRaw {β : Type} (p : Page β) : RawPage β :=
  { id := some p.id, title := some p.title, content := p.content }

/-- The function `saveToLocalStorage(pagesToSave)`: writes the serialized collection
to the slot, but only when the collection is non-empty. -/
def saveToLocalStorage {β : Type} (storage : Option (StoredVal β))
    (pagesToSave : List (Page β)) : Option (StoredVal β) :=
  if pagesToSave.length > 0 then some (StoredVal.arr (pagesToSave.map pageToRaw))
  else storage

/-- One step of the `validatedPages` map in the load effect:
`{ id: page.id || Date.now().toString(), title: page.title || "Untitled",
content: Array.isArray(page.content) ? page.content : [] }`. -/
def validatePage {β : Type} (now : Nat) (page : RawPage β) : Page β :=
  { id := jsOrStr page.id (timestampId now)
    title := jsOrStr page.title "Untitled"
    content := if page.content.isArr then page.content else CVal.arr [] }

/-- Result of the load effect: the new state plus whether
`console.error("Failed to parse saved pages", e)` fired. -/
structure LoadOutcome (β : Type) where
  state : AppState β
  loggedParseError : Bool
  deriving DecidableEq

/-- The initial-load `useEffect` (lines 83-109): reads the slot; on a
parsed non-empty array, validates every record and selects the first;
otherwise (missing value, parse exception — which is caught and logged —
non-array JSON, or an empty array) creates and selects a default
"Getting Started" page.  The effect itself never writes the slot. -/
def loadFromLocalStorage {β : Type} (now : Nat) (s : AppState β) : LoadOutcome β :=
  let newPage : Page β := createNewPage now "Getting Started"
  let fallback : LoadOutcome β :=
    { state := { s with pages := [newPage], currentPageId := some newPage.id }
      loggedParseError := false }
  match s.storage with
  | some (StoredVal.arr parsedPages) =>
      match parsedPages with
      | [] => fallback
      | first :: rest =>
          let validatedPages := (first :: rest).map (validatePage now)
          { state := { s with pages := validatedPages
                              currentPageId := some (validatePage now first).id }
            loggedParseError := false }
  | some StoredVal.nonArray => fallback
  | some StoredVal.malformed => { fallback with loggedParseError := true }
  | none => fallback

/-- The `useEffect` on `[pages]` (lines 112-114): persists the collection
whenever it changes. -/
def savePagesEffect {β : Type} (s : AppState β) : AppState β :=
  { s with storage := saveToLocalStorage s.storage s.pages }

/-- The callback `handleEditorContentChange(updatedContent)`: bails out when no page
is selected (or the selected id is falsy) or a load is in progress;
otherwise replaces the selected page's content. -/
def handleEditorContentChange {β : Type} (s : AppState β)
    (updatedContent : List β) : AppState β :=
  match s.currentPageId with
  | none => s
  | some cid =>
      if cid = "" ∨ s.isLoading then s
      else { s with pages := s.pages.map fun page =>
               if page.id = cid then { page with content := CVal.arr updatedContent }
               else page }

/-- The function `addNewPage()`: appends a fresh "Untitled" page and selects it. -/
def addNewPage {β : Type} (now : Nat) (s : AppState β) : AppState β :=
  let newPage : Page β := createNewPage now "Untitled"
  { s with pages := s.pages ++ [newPage], currentPageId := some newPage.id }

/-- The function `deletePage(pageId)`: filters the page out, saves the result, and
moves the selection to the first remaining page (or `null`) when the
deleted page was selected. -/
def deletePage {β : Type} (s : AppState β) (pageId : String) : AppState β :=
  let updatedPages := s.pages.filter fun page => page.id ≠ pageId
  { s with pages := updatedPages
           storage := saveToLocalStorage s.storage updatedPages
           currentPageId :=
             if s.currentPageId = some pageId then updatedPages.head?.map Page.id
             else s.currentPageId }

/-- The function `updatePageTitle(pageId, newTitle)`: no-op on a falsy id; otherwise
replaces the matching page's title with `newTitle || "Untitled"`. -/
def updatePageTitle {β : Type} (s : AppState β) (pageId : String)
    (newTitle : String) : AppState β :=
  if pageId = "" then s
  else { s with pages := s.pages.map fun page =>
           if page.id = pageId then
             { page with title := if newTitle = "" then "Untitled" else newTitle }
           else page }

/-- The function `handlePageSwitch(pageId)`: no-op on the already-selected page;
otherwise, when a page is selected (truthy id) and no load is in
progress, writes the selected page's content back into the collection
(`find(...)?.content || []`) and saves, then switches the selection. -/
def handlePageSwitch {β : Type} (s : AppState β) (pageId : String) : AppState β :=
  if some pageId = s.currentPageId then s
  else
    let flushed :=
      match s.currentPageId with
      | some cid =>
          if cid ≠ "" ∧ s.isLoading = false then
            let updatedContent :=
              match s.pages.find? (fun page : Page β => page.id == cid) with
              | some page => if page.content.jsFalsy then CVal.arr [] else page.content
              | none => CVal.arr []
            let updatedPages := s.pages.map fun page : Page β =>
              if page.id = cid then { page with content := updatedContent } else page
            { s with pages := updatedPages
                     storage := saveToLocalStorage s.storage updatedPages }
          else s
      | none => s
    { flushed with currentPageId := some pageId }

/-- A user-level create or delete action, with the timestamp
`Date.now()` observed by a create. -/
inductive Op where
  | add : Nat → Op
  | del : String → Op
  deriving DecidableEq

/-- Run one action on the state. -/
def applyOp {β : Type} (s : AppState β) : Op → AppState β
  | Op.add now => addNewPage now s
  | Op.del pageId => deletePage s pageId

/-- Run a sequence of actions. -/
def applyOps {β : Type} (s : AppState β) : List Op → AppState β
  | [] => s
  | op :: rest => applyOps (applyOp s op) rest

/-- The id discipline claimed of the collection: pairwise distinct and
non-empty page ids. -/
def pageIdsOk {β : Type} (pages : List (Page β)) : Prop :=
  (pages.map Page.id).Nodup ∧ ∀ p ∈ pages, p.id ≠ ""

instance {β : Type} (pages : List (Page β)) : Decidable (pageIdsOk pages) := by
  unfold pageIdsOk
  infer_instance

/-- Along a run, every create happens at a timestamp whose decimal
string is not already an id of the collection it extends. -/
def freshRun {β : Type} (s : AppState β) : List Op → Bool
  | [] => true
  | Op.add now :: rest =>
      (!decide (timestampId now ∈ s.pages.map Page.id)) &&
        freshRun (applyOp s (Op.add now)) rest
  | Op.del pageId :: rest => freshRun (applyOp s (Op.del pageId)) rest

/-- Every page of the collection holds a genuine array as content. -/
def contentsOk {β : Type} (pages : List (Page β)) : Prop :=
  ∀ p ∈ pages, p.content.isArr = true

instance {β : Type} (pages : List (Page β)) : Decidable (contentsOk pages) := by
  unfold contentsOk
  infer_instance

/-! ### Helper lemmas -/

/-- The helper `Nat.toDigitsCore` never shrinks a non-empty accumulator to nil. -/
theorem toDigitsCore_ne_nil (b : Nat) :
    ∀ (f n : Nat) (acc : List Char), acc ≠ [] → Nat.toDigitsCore b f n acc ≠ []
  | 0, _, _, h => h
  | f + 1, n, acc, h => by
      simp only [Nat.toDigitsCore]
      split
      · exact List.cons_ne_nil _ _
      · exact toDigitsCore_ne_nil b f (n / b) _ (List.cons_ne_nil _ _)

/-- A decimal timestamp id is never the empty string. -/
theorem timestampId_ne_empty (n : Nat) : timestampId n ≠ "" := by
  have h : Nat.toDigits 10 n ≠ [] := by
    show Nat.toDigitsCore 10 (n + 1) n [] ≠ []
    simp only [Nat.toDigitsCore]
    split
    · exact List.cons_ne_nil _ _
    · exact toDigitsCore_ne_nil 10 n (n / 10) _ (List.cons_ne_nil _ _)
  intro hc
  apply h
  have hdata := congrArg String.data hc
  simpa [timestampId, toString, Nat.repr, List.asString] using hdata

/-- Defaulting (`jsOrStr`) with a non-empty default never yields the empty string. -/
theorem jsOrStr_ne_empty (v : Option String) (d : String) (hd : d ≠ "") :
    jsOrStr v d ≠ "" := by
  cases v with
  | none => exact hd
  | some s =>
      by_cases hs : s = "" <;> simp [jsOrStr, hs, hd]

/-- With pairwise distinct ids, searching the image of an id-preserving
map for the id of a member finds exactly that member's image. -/
theorem find?_map_of_nodup {β : Type} (f : Page β → Page β)
    (hf : ∀ p, (f p).id = p.id) :
    ∀ {pages : List (Page β)} {a : Page β},
      (pages.map Page.id).Nodup → a ∈ pages →
      (pages.map f).find? (fun p => p.id == a.id) = some (f a) := by
  intro pages
  induction pages with
  | nil => intro a _ ha; cases ha
  | cons p rest ih =>
      intro a hnd ha
      rcases List.mem_cons.mp ha with rfl | hmem
      · simp [List.find?, hf]
      · have hpa : p.id ≠ a.id := by
          intro he
          have hin : a.id ∈ rest.map Page.id := List.mem_map_of_mem Page.id hmem
          have := (List.nodup_cons.mp hnd).1
          exact this (he ▸ hin)
        have hnd' : (rest.map Page.id).Nodup := (List.nodup_cons.mp hnd).2
        simp only [List.map_cons, List.find?]
        rw [show (((f p).id == a.id) = false) by
              simpa [hf] using hpa]
        exact ih hnd' hmem

/-- Adding a page preserves the id discipline when the generated
timestamp id is not already an id of the collection. -/
theorem pageIdsOk_addNewPage {β : Type} {s : AppState β} {now : Nat}
    (h : pageIdsOk s.pages) (hfresh : timestampId now ∉ s.pages.map Page.id) :
    pageIdsOk ((addNewPage now s).pages) := by
  obtain ⟨hnd, hne⟩ := h
  constructor
  · have hcat : (s.pages.map Page.id ++ [timestampId now]).Nodup := by
      rw [List.nodup_append]
      refine ⟨hnd, List.nodup_singleton _, ?_⟩
      intro x hx hy
      rw [List.mem_singleton] at hy
      exact hfresh (hy ▸ hx)
    simpa [addNewPage, createNewPage] using hcat
  · intro p hp
    have hp' : p ∈ s.pages ∨ p = createNewPage now "Untitled" := by
      simpa [addNewPage] using hp
    rcases hp' with hp1 | hp2
    · exact hne p hp1
    · simpa [hp2, createNewPage] using timestampId_ne_empty now

/-- Deleting a page always preserves the id discipline. -/
theorem pageIdsOk_deletePage {β : Type} {s : AppState β} (i : String)
    (h : pageIdsOk s.pages) : pageIdsOk ((deletePage s i).pages) := by
  obtain ⟨hnd, hne⟩ := h
  constructor
  · exact List.Nodup.sublist ((List.filter_sublist _).map Page.id) hnd
  · intro p hp
    exact hne p (List.mem_of_mem_filter hp)

/-- The id discipline is preserved along any create/delete run whose
creates all use fresh timestamp ids. -/
theorem pageIdsOk_run {β : Type} (ops : List Op) :
    ∀ s : AppState β, pageIdsOk s.pages → freshRun s ops = true →
      pageIdsOk (applyOps s ops).pages := by
  induction ops with
  | nil => intro s h _; exact h
  | cons op rest ih =>
      intro s h hf
      cases op with
      | add now =>
          simp only [freshRun, Bool.and_eq_true, Bool.not_eq_true',
            decide_eq_false_iff_not] at hf
          exact ih _ (pageIdsOk_addNewPage h hf.1) hf.2
      | del i =>
          simp only [freshRun] at hf
          exact ih _ (pageIdsOk_deletePage i h) hf

/-- A validated record's id is never empty (a stored non-empty id is
kept, and both a missing and an empty id fall back to the timestamp). -/
theorem validatePage_id_ne_empty {β : Type} (now : Nat) (r : RawPage β) :
    (validatePage now r).id ≠ "" :=
  jsOrStr_ne_empty r.id (timestampId now) (timestampId_ne_empty now)

/-- An empty starting state, for concrete counterexamples. -/
def demoState : AppState Nat :=
  { pages := [], currentPageId := none, isLoading := false, storage := none }

/-- A persisted collection holding two records with the same id. -/
def dupIdStored : StoredVal Nat :=
  StoredVal.arr
    [ { id := some "a", title := some "note", content := CVal.arr [] },
      { id := some "a", title := some "note", content := CVal.arr [] } ]

/-- C1: the claim fails as stated.  Two `addNewPage` calls observing the
same `Date.now()` millisecond produce two pages with the identical id
"1", and `load()` keeps duplicate stored ids verbatim, so neither every
create/delete sequence nor every load result has pairwise distinct ids. -/
theorem c1_counterexample :
    pageIdsOk demoState.pages ∧
    ¬ pageIdsOk ((applyOps demoState [Op.add 1, Op.add 1]).pages) ∧
    ¬ pageIdsOk
        ((loadFromLocalStorage 0
            { demoState with storage := some dupIdStored }).state.pages) := by
  refine ⟨by decide, by decide, by decide⟩

/-- C1 (amended): starting from any collection with unique non-empty
ids, any create/delete sequence in which every create's timestamp id is
not already an id of the collection it extends again yields unique
non-empty ids (deletes need no proviso); and every page produced by
`load()` — normalized or default — has a non-empty id, though `load()`
does not deduplicate stored ids. -/
theorem c1_amended_unique_ids {β : Type} :
    (∀ (s : AppState β) (ops : List Op),
        pageIdsOk s.pages → freshRun s ops = true →
        pageIdsOk (applyOps s ops).pages) ∧
    (∀ (now : Nat) (s : AppState β),
        ∀ p ∈ (loadFromLocalStorage now s).state.pages, p.id ≠ "") := by
  constructor
  · intro s ops h hf
    exact pageIdsOk_run ops s h hf
  · intro now s p hp
    cases hs : s.storage with
    | none =>
        simp [loadFromLocalStorage, hs] at hp
        simpa [hp, createNewPage] using timestampId_ne_empty now
    | some sv =>
        cases sv with
        | arr raws =>
            cases raws with
            | nil =>
                simp [loadFromLocalStorage, hs] at hp
                simpa [hp, createNewPage] using timestampId_ne_empty now
            | cons first rest =>
                simp only [loadFromLocalStorage, hs, List.mem_map] at hp
                obtain ⟨q, _, hq⟩ := hp
                simpa [hq] using validatePage_id_ne_empty now q
        | nonArray =>
            simp [loadFromLocalStorage, hs] at hp
            simpa [hp, createNewPage] using timestampId_ne_empty now
        | malformed =>
            simp [loadFromLocalStorage, hs] at hp
            simpa [hp, createNewPage] using timestampId_ne_empty now

/-- Witness: the amended C1 theorem applied at concrete inputs. -/
theorem c1_amended_unique_ids_witness :
    pageIdsOk ((applyOps demoState [Op.add 1, Op.add 2, Op.del "1"]).pages) ∧
    (createNewPage 0 "Getting Started" : Page Nat).id ≠ "" := by
  constructor
  · exact c1_amended_unique_ids.1 demoState [Op.add 1, Op.add 2, Op.del "1"]
      (by decide) (by decide)
  · exact c1_amended_unique_ids.2 0 demoState
      (createNewPage 0 "Getting Started") (by decide)

/-- A genuine array is never falsy. -/
theorem CVal.jsFalsy_eq_false_of_isArr {β : Type} {c : CVal β}
    (h : c.isArr = true) : c.jsFalsy = false := by
  cases c with
  | arr l => rfl
  | nonArr f => cases h

/-- C2: switching away from a selected page A (states obeying the data
model: unique non-empty ids, array content, no load in progress) leaves
A — with its latest content — in the collection, stores the serialized
full collection in the slot, and selects the target; switching to the
already-selected page changes nothing. -/
theorem c2_handlePageSwitch_persists {β : Type} (s : AppState β) (targetId : String) :
    (s.currentPageId = some targetId → handlePageSwitch s targetId = s) ∧
    (∀ (aid : String) (a : Page β),
      s.isLoading = false →
      s.currentPageId = some aid →
      targetId ≠ aid →
      pageIdsOk s.pages →
      s.pages.find? (fun p : Page β => p.id == aid) = some a →
      a.content.isArr = true →
      (handlePageSwitch s targetId).currentPageId = some targetId ∧
      a ∈ (handlePageSwitch s targetId).pages ∧
      (handlePageSwitch s targetId).storage =
        some (StoredVal.arr ((handlePageSwitch s targetId).pages.map pageToRaw)) ∧
      pageToRaw a ∈ ((handlePageSwitch s targetId).pages.map pageToRaw)) := by
  constructor
  · intro h
    simp [handlePageSwitch, h]
  · intro aid a hload hcur htgt hids hfind hcont
    have hmem : a ∈ s.pages := List.mem_of_find?_eq_some hfind
    have haid : a.id = aid := by
      have := List.find?_some hfind
      simpa using this
    have hane : aid ≠ "" := haid ▸ hids.2 a hmem
    have hfalsy : a.content.jsFalsy = false := CVal.jsFalsy_eq_false_of_isArr hcont
    have hkey : handlePageSwitch s targetId =
        { s with
            pages := s.pages.map fun page =>
              if page.id = aid then { page with content := a.content } else page
            storage := saveToLocalStorage s.storage
              (s.pages.map fun page =>
                if page.id = aid then { page with content := a.content } else page)
            currentPageId := some targetId } := by
      rw [handlePageSwitch, if_neg (by simp [hcur, htgt]), hcur]
      simp only [if_pos (And.intro hane hload), hfind, hfalsy, Bool.false_eq_true,
        if_false]
    have himg : ∀ page ∈ s.pages, page.id = aid →
        (if page.id = aid then { page with content := a.content } else page) = a := by
      intro page hpmem hpid
      have hpa : page = a := by
        have h1 := find?_map_of_nodup (β := β) id (fun _ => rfl) hids.1 hpmem
        have h2 := find?_map_of_nodup (β := β) id (fun _ => rfl) hids.1 hmem
        simp only [List.map_id] at h1 h2
        rw [hpid] at h1
        rw [haid] at h2
        exact Option.some.inj (h1.symm.trans h2)
      rw [if_pos hpid, hpa]
    have hamem : a ∈ s.pages.map fun page =>
        if page.id = aid then { page with content := a.content } else page :=
      List.mem_map.mpr ⟨a, hmem, himg a hmem haid⟩
    have hlen : 0 < (s.pages.map fun page =>
        if page.id = aid then { page with content := a.content } else page).length :=
      List.length_pos.mpr (List.ne_nil_of_mem hamem)
    refine ⟨by rw [hkey], by rw [hkey]; exact hamem, ?_, ?_⟩
    · rw [hkey]
      simp only [saveToLocalStorage, if_pos hlen]
    · rw [hkey]
      exact List.mem_map_of_mem pageToRaw hamem

/-- A first concrete page. -/
def pageOne : Page Nat := { id := "1", title := "One", content := CVal.arr [7] }

/-- A second concrete page. -/
def pageTwo : Page Nat := { id := "2", title := "Two", content := CVal.arr [] }

/-- A concrete state with two pages, the first selected. -/
def c2State : AppState Nat :=
  { pages := [pageOne, pageTwo], currentPageId := some "1", isLoading := false,
    storage := none }

/-- Witness: the C2 theorem applied to a concrete two-page state. -/
theorem c2_handlePageSwitch_persists_witness :
    (handlePageSwitch { c2State with currentPageId := some "2" } "2" =
      { c2State with currentPageId := some "2" }) ∧
    ((handlePageSwitch c2State "2").currentPageId = some "2" ∧
      pageOne ∈ (handlePageSwitch c2State "2").pages ∧
      (handlePageSwitch c2State "2").storage =
        some (StoredVal.arr ((handlePageSwitch c2State "2").pages.map pageToRaw)) ∧
      pageToRaw pageOne ∈ ((handlePageSwitch c2State "2").pages.map pageToRaw)) := by
  constructor
  · exact (c2_handlePageSwitch_persists
      { c2State with currentPageId := some "2" } "2").1 rfl
  · exact (c2_handlePageSwitch_persists c2State "2").2 "1" pageOne rfl rfl
      (by decide) (by decide) (by decide) (by decide)

/-- The starting state of the C3 scenario: the slot holds the JSON
string "[]". -/
def c3Start : AppState Nat :=
  { pages := [], currentPageId := none, isLoading := false,
    storage := some (StoredVal.arr []) }

/-- C3: the claim fails as stated.  `load()` on a stored empty array
does create and select the default page and leaves the slot holding
"[]", but the persist-on-pages-change effect (lines 112-114), which the
component runs as soon as `load()`'s `setPages` lands, overwrites the
slot with the new page before any further mutation occurs. -/
theorem c3_counterexample :
    (loadFromLocalStorage 5 c3Start).state.pages =
      [createNewPage 5 "Getting Started"] ∧
    (loadFromLocalStorage 5 c3Start).state.currentPageId = some "5" ∧
    (loadFromLocalStorage 5 c3Start).state.storage = some (StoredVal.arr []) ∧
    (savePagesEffect (loadFromLocalStorage 5 c3Start).state).storage ≠
      some (StoredVal.arr []) := by
  refine ⟨by decide, by decide, by decide, by decide⟩

/-- C3 (amended): when the slot holds the empty array, `load()` creates
and selects a default "Getting Started" page and itself leaves the slot
untouched; the pages-change persistence effect that follows the load
(the collection now being non-empty) then writes the new page to the
slot, without waiting for any further mutation. -/
theorem c3_load_empty_array {β : Type} (now : Nat) (s : AppState β)
    (h : s.storage = some (StoredVal.arr [])) :
    (loadFromLocalStorage now s).state.pages =
      [createNewPage now "Getting Started"] ∧
    (loadFromLocalStorage now s).state.currentPageId =
      some (timestampId now) ∧
    (loadFromLocalStorage now s).state.storage = s.storage ∧
    (savePagesEffect (loadFromLocalStorage now s).state).storage =
      some (StoredVal.arr [pageToRaw (createNewPage now "Getting Started")]) := by
  refine ⟨?_, ?_, ?_, ?_⟩ <;>
    simp [loadFromLocalStorage, h, savePagesEffect, saveToLocalStorage,
      createNewPage]

/-- Witness: the amended C3 theorem at the concrete scenario state. -/
theorem c3_load_empty_array_witness :
    (loadFromLocalStorage 5 c3Start).state.pages =
      [createNewPage 5 "Getting Started"] ∧
    (loadFromLocalStorage 5 c3Start).state.currentPageId =
      some (timestampId 5) ∧
    (loadFromLocalStorage 5 c3Start).state.storage = c3Start.storage ∧
    (savePagesEffect (loadFromLocalStorage 5 c3Start).state).storage =
      some (StoredVal.arr [pageToRaw (createNewPage 5 "Getting Started")]) :=
  c3_load_empty_array 5 c3Start rfl

/-- C4: persisting an empty collection never changes the slot, and
deleting the last remaining page — both through `deletePage`'s own save
call and through the pages-change effect — leaves the previously stored
value untouched. -/
theorem c4_persist_empty_noop {β : Type} (s : AppState β) (p : Page β) :
    (∀ storage : Option (StoredVal β), saveToLocalStorage storage [] = storage) ∧
    (s.pages = [p] →
      (deletePage s p.id).pages = [] ∧
      (deletePage s p.id).storage = s.storage ∧
      (savePagesEffect (deletePage s p.id)).storage = s.storage) := by
  constructor
  · intro storage
    simp [saveToLocalStorage]
  · intro h
    obtain ⟨pages, cur, ld, st⟩ := s
    simp only at h
    subst h
    refine ⟨?_, ?_, ?_⟩ <;>
      simp [deletePage, savePagesEffect, saveToLocalStorage]

/-- A single-page state whose slot still holds an older collection. -/
def c4State : AppState Nat :=
  { pages := [pageOne], currentPageId := some "1", isLoading := false,
    storage := some dupIdStored }

/-- Witness: the C4 theorem applied to a concrete single-page state. -/
theorem c4_persist_empty_noop_witness :
    (saveToLocalStorage (some dupIdStored) ([] : List (Page Nat)) =
      some dupIdStored) ∧
    ((deletePage c4State pageOne.id).pages = [] ∧
      (deletePage c4State pageOne.id).storage = c4State.storage ∧
      (savePagesEffect (deletePage c4State pageOne.id)).storage =
        c4State.storage) := by
  constructor
  · exact (c4_persist_empty_noop c4State pageOne).1 (some dupIdStored)
  · exact (c4_persist_empty_noop c4State pageOne).2 rfl

/-- C5: `load()` runs the validation map over every record of a parsed
non-empty array, and validation defaults exactly the claimed fields:
falsy id → timestamp-derived id, missing or empty title → "Untitled",
non-array content → empty array; an already well-formed record is kept
verbatim. -/
theorem c5_load_normalizes {β : Type} (now : Nat) (s : AppState β)
    (first : RawPage β) (rest : List (RawPage β)) (r : RawPage β)
    (i t : String) (l : List β) :
    (s.storage = some (StoredVal.arr (first :: rest)) →
      (loadFromLocalStorage now s).state.pages =
        (first :: rest).map (validatePage now)) ∧
    ((r.id = none ∨ r.id = some "") →
      (validatePage now r).id = timestampId now) ∧
    ((r.title = none ∨ r.title = some "") →
      (validatePage now r).title = "Untitled") ∧
    (r.content.isArr = false → (validatePage now r).content = CVal.arr []) ∧
    (i ≠ "" → t ≠ "" →
      validatePage now { id := some i, title := some t, content := CVal.arr l } =
        { id := i, title := t, content := CVal.arr l }) := by
  refine ⟨?_, ?_, ?_, ?_, ?_⟩
  · intro h
    simp [loadFromLocalStorage, h]
  · rintro (h | h) <;> simp [validatePage, jsOrStr, h]
  · rintro (h | h) <;> simp [validatePage, jsOrStr, h]
  · intro h
    simp [validatePage, h]
  · intro hi ht
    simp [validatePage, jsOrStr, hi, ht, CVal.isArr]

/-- A stored record with a missing id, an empty title, and a non-array
content field. -/
def rawMissing : RawPage Nat :=
  { id := none, title := some "", content := CVal.nonArr true }

/-- Witness: the C5 theorem at a concrete malformed record. -/
theorem c5_load_normalizes_witness :
    ((loadFromLocalStorage 7
        { demoState with storage := some (StoredVal.arr [rawMissing]) }).state.pages =
      [rawMissing].map (validatePage 7)) ∧
    ((validatePage 7 rawMissing).id = timestampId 7) ∧
    ((validatePage 7 rawMissing).title = "Untitled") ∧
    ((validatePage 7 rawMissing).content = CVal.arr []) ∧
    (validatePage 7
        { id := some "a", title := some "b", content := CVal.arr [3] } =
      { id := "a", title := "b", content := CVal.arr [3] }) := by
  have h := c5_load_normalizes 7
    { demoState with storage := some (StoredVal.arr [rawMissing]) }
    rawMissing [] rawMissing "a" "b" [3]
  exact ⟨h.1 rfl, h.2.1 (Or.inl rfl), h.2.2.1 (Or.inr rfl), h.2.2.2.1 rfl,
    h.2.2.2.2 (by decide) (by decide)⟩

/-- C6: in a collection obeying the id discipline, `updatePageTitle i t`
gives the page with id `i` the title `t`, or "Untitled" when `t` is
empty; reading the page back by id returns exactly that. -/
theorem c6_updateTitle {β : Type} (s : AppState β) (a : Page β) (i t : String)
    (hids : pageIdsOk s.pages) (ha : a ∈ s.pages) (hai : a.id = i) :
    (updatePageTitle s i t).pages.find? (fun p : Page β => p.id == i) =
      some { a with title := if t = "" then "Untitled" else t } := by
  subst hai
  have hine : a.id ≠ "" := hids.2 a ha
  have hmap := find?_map_of_nodup
    (fun page : Page β =>
      if page.id = a.id then
        { page with title := if t = "" then "Untitled" else t }
      else page)
    (fun p => by by_cases h : p.id = a.id <;> simp [h]) hids.1 ha
  simpa [updatePageTitle, hine] using hmap

/-- Witness: the C6 theorem at a concrete state, with an empty new
title. -/
theorem c6_updateTitle_witness :
    (updatePageTitle c2State "1" "").pages.find? (fun p : Page Nat => p.id == "1") =
      some { pageOne with title := "Untitled" } := by
  have h := c6_updateTitle c2State pageOne "1" "" (by decide) (by decide) rfl
  simpa using h

/-- C7: `deletePage i` keeps a page iff its id differs from `i`; when
the deleted page was selected, the first remaining page (or none, if no
page remains) becomes selected; otherwise the selection is unchanged. -/
theorem c7_deletePage {β : Type} (s : AppState β) (i : String) :
    ((deletePage s i).pages =
      s.pages.filter (fun page : Page β => page.id ≠ i)) ∧
    (∀ a ∈ s.pages, a.id ≠ i → a ∈ (deletePage s i).pages) ∧
    (∀ a ∈ (deletePage s i).pages, a.id ≠ i ∧ a ∈ s.pages) ∧
    (s.currentPageId = some i →
      (deletePage s i).currentPageId =
        ((deletePage s i).pages).head?.map Page.id) ∧
    (s.currentPageId ≠ some i →
      (deletePage s i).currentPageId = s.currentPageId) := by
  refine ⟨rfl, ?_, ?_, ?_, ?_⟩
  · intro a ha hne
    simp only [deletePage]
    exact List.mem_filter.mpr ⟨ha, by simpa using hne⟩
  · intro a ha
    have h2 : a ∈ s.pages ∧ ¬a.id = i := by simpa [deletePage] using ha
    exact ⟨h2.2, h2.1⟩
  · intro h
    simp [deletePage, h]
  · intro h
    simp [deletePage, h]

/-- Witness: the C7 theorem at a concrete two-page state, deleting the
selected first page. -/
theorem c7_deletePage_witness :
    ((deletePage c2State "1").pages =
      c2State.pages.filter (fun page : Page Nat => page.id ≠ "1")) ∧
    (pageTwo ∈ (deletePage c2State "1").pages) ∧
    (pageTwo.id ≠ "1" ∧ pageTwo ∈ c2State.pages) ∧
    ((deletePage c2State "1").currentPageId =
      ((deletePage c2State "1").pages).head?.map Page.id) := by
  have h := c7_deletePage c2State "1"
  exact ⟨h.1, h.2.1 pageTwo (by decide) (by decide),
    h.2.2.1 pageTwo (h.2.1 pageTwo (by decide) (by decide)),
    h.2.2.2.1 rfl⟩

/-- C8: a stored value on which `JSON.parse` throws is absorbed by the
load effect (the embedded `loadFromLocalStorage` is a total function —
the catch block swallows the exception) and is logged, and the resulting
state is the very state produced for missing data: one fresh default
"Getting Started" page, selected; JSON that parses to something other
than a non-empty array yields that same state without the log entry. -/
theorem c8_load_parse_failure {β : Type} (now : Nat) (s : AppState β) :
    (s.storage = some StoredVal.malformed →
      (loadFromLocalStorage now s).loggedParseError = true ∧
      (loadFromLocalStorage now s).state =
        { s with pages := [createNewPage now "Getting Started"],
                 currentPageId := some (timestampId now) }) ∧
    ((s.storage = some StoredVal.nonArray ∨ s.storage = some (StoredVal.arr []) ∨
        s.storage = none) →
      (loadFromLocalStorage now s).loggedParseError = false ∧
      (loadFromLocalStorage now s).state =
        { s with pages := [createNewPage now "Getting Started"],
                 currentPageId := some (timestampId now) }) := by
  constructor
  · intro h
    exact ⟨by simp [loadFromLocalStorage, h],
      by simp [loadFromLocalStorage, h, createNewPage]⟩
  · rintro (h | h | h) <;>
      exact ⟨by simp [loadFromLocalStorage, h],
        by simp [loadFromLocalStorage, h, createNewPage]⟩

/-- Witness: the C8 theorem on a concrete corrupt slot and a concrete
missing slot. -/
theorem c8_load_parse_failure_witness :
    ((loadFromLocalStorage 3
        { demoState with storage := some StoredVal.malformed }).loggedParseError =
          true ∧
      (loadFromLocalStorage 3
        { demoState with storage := some StoredVal.malformed }).state =
        { { demoState with storage := some StoredVal.malformed } with
            pages := [createNewPage 3 "Getting Started"],
            currentPageId := some (timestampId 3) }) ∧
    ((loadFromLocalStorage 3 demoState).loggedParseError = false ∧
      (loadFromLocalStorage 3 demoState).state =
        { demoState with pages := [createNewPage 3 "Getting Started"],
                         currentPageId := some (timestampId 3) }) := by
  constructor
  · exact (c8_load_parse_failure 3
      { demoState with storage := some StoredVal.malformed }).1 rfl
  · exact (c8_load_parse_failure 3 demoState).2 (Or.inr (Or.inr rfl))

/-- A validated record's content is always a genuine array. -/
theorem validatePage_content_isArr {β : Type} (now : Nat) (r : RawPage β) :
    (validatePage now r).content.isArr = true := by
  cases hr : r.content with
  | arr l => simp [validatePage, hr, CVal.isArr]
  | nonArr f => simp [validatePage, hr, CVal.isArr]

/-- Pointwise replacement of one page's content by an array preserves
the all-contents-are-arrays invariant. -/
theorem contentsOk_setContent {β : Type} {pages : List (Page β)} {cid : String}
    {cv : CVal β} (h : contentsOk pages) (hC : cv.isArr = true) :
    contentsOk (pages.map fun page : Page β =>
      if page.id = cid then { page with content := cv } else page) := by
  intro p hp
  obtain ⟨q, hq, rfl⟩ := List.mem_map.mp hp
  by_cases hqi : q.id = cid
  · simpa [hqi] using hC
  · simpa [hqi] using h q hq

/-- The load effect only ever produces array contents. -/
theorem contentsOk_load {β : Type} (now : Nat) (s : AppState β) :
    contentsOk ((loadFromLocalStorage now s).state.pages) := by
  intro p hp
  cases hs : s.storage with
  | none =>
      simp [loadFromLocalStorage, hs] at hp
      simp [hp, createNewPage, CVal.isArr]
  | some sv =>
      cases sv with
      | arr raws =>
          cases raws with
          | nil =>
              simp [loadFromLocalStorage, hs] at hp
              simp [hp, createNewPage, CVal.isArr]
          | cons first rest =>
              simp only [loadFromLocalStorage, hs, List.mem_map] at hp
              obtain ⟨q, _, hq⟩ := hp
              simpa [hq] using validatePage_content_isArr now q
      | nonArray =>
          simp [loadFromLocalStorage, hs] at hp
          simp [hp, createNewPage, CVal.isArr]
      | malformed =>
          simp [loadFromLocalStorage, hs] at hp
          simp [hp, createNewPage, CVal.isArr]

/-- Adding a page preserves the all-contents-are-arrays invariant. -/
theorem contentsOk_addNewPage {β : Type} {s : AppState β} {now : Nat}
    (h : contentsOk s.pages) : contentsOk ((addNewPage now s).pages) := by
  intro p hp
  have hp' : p ∈ s.pages ∨ p = createNewPage now "Untitled" := by
    simpa [addNewPage] using hp
  rcases hp' with h1 | h2
  · exact h p h1
  · simp [h2, createNewPage, CVal.isArr]

/-- Deleting a page preserves the all-contents-are-arrays invariant. -/
theorem contentsOk_deletePage {β : Type} {s : AppState β} {i : String}
    (h : contentsOk s.pages) : contentsOk ((deletePage s i).pages) := by
  intro p hp
  have hp' : p ∈ s.pages ∧ ¬p.id = i := by simpa [deletePage] using hp
  exact h p hp'.1

/-- Retitling a page preserves the all-contents-are-arrays invariant. -/
theorem contentsOk_updatePageTitle {β : Type} {s : AppState β} {i t : String}
    (h : contentsOk s.pages) : contentsOk ((updatePageTitle s i t).pages) := by
  intro p hp
  by_cases hi : i = ""
  · exact h p (by simpa [updatePageTitle, hi] using hp)
  · simp only [updatePageTitle, if_neg hi, List.mem_map] at hp
    obtain ⟨q, hq, rfl⟩ := hp
    by_cases hqi : q.id = i
    · simpa [hqi] using h q hq
    · simpa [hqi] using h q hq

/-- Editing content preserves the all-contents-are-arrays
invariant. -/
theorem contentsOk_handleEditorContentChange {β : Type} {s : AppState β}
    {c : List β} (h : contentsOk s.pages) :
    contentsOk ((handleEditorContentChange s c).pages) := by
  cases hcur : s.currentPageId with
  | none => simpa [handleEditorContentChange, hcur] using h
  | some cid =>
      by_cases hg : cid = "" ∨ s.isLoading = true
      · intro p hp
        refine h p ?_
        simpa [handleEditorContentChange, hcur, if_pos hg] using hp
      · intro p hp
        rw [handleEditorContentChange] at hp
        simp only [hcur, if_neg hg] at hp
        exact contentsOk_setContent h (by simp [CVal.isArr]) p hp

/-- Switching pages preserves the all-contents-are-arrays
invariant. -/
theorem contentsOk_handlePageSwitch {β : Type} {s : AppState β} {i : String}
    (h : contentsOk s.pages) : contentsOk ((handlePageSwitch s i).pages) := by
  by_cases he : some i = s.currentPageId
  · intro p hp
    exact h p (by simpa [handlePageSwitch, he] using hp)
  · cases hcur : s.currentPageId with
    | none =>
        intro p hp
        exact h p (by simpa [handlePageSwitch, he, hcur] using hp)
    | some cid =>
        have he' : ¬some i = some cid := by rw [hcur] at he; exact he
        by_cases hg : cid ≠ "" ∧ s.isLoading = false
        · intro p hp
          rw [handlePageSwitch] at hp
          cases hf : s.pages.find? (fun page : Page β => page.id == cid) with
          | none =>
              simp only [hcur, if_neg he', if_pos hg, hf] at hp
              exact contentsOk_setContent h (by simp [CVal.isArr]) p hp
          | some q =>
              have hq : q ∈ s.pages := List.mem_of_find?_eq_some hf
              have hqarr : q.content.isArr = true := h q hq
              simp only [hcur, if_neg he', if_pos hg, hf,
                CVal.jsFalsy_eq_false_of_isArr hqarr, Bool.false_eq_true,
                if_false] at hp
              exact contentsOk_setContent h hqarr p hp
        · intro p hp
          rw [handlePageSwitch] at hp
          simp only [hcur, if_neg he', if_neg hg] at hp
          exact h p hp

/-- C9: every page the store ever holds has a genuine array as content:
`load()` establishes the invariant, `createNewPage` produces an array,
and adding, deleting, retitling, editing content, and switching pages
all preserve it. -/
theorem c9_contents_always_arrays {β : Type} (now : Nat) (s : AppState β)
    (i t : String) (c : List β) :
    contentsOk ((loadFromLocalStorage now s).state.pages) ∧
    ((createNewPage now t : Page β).content.isArr = true) ∧
    (contentsOk s.pages → contentsOk ((addNewPage now s).pages)) ∧
    (contentsOk s.pages → contentsOk ((deletePage s i).pages)) ∧
    (contentsOk s.pages → contentsOk ((updatePageTitle s i t).pages)) ∧
    (contentsOk s.pages → contentsOk ((handleEditorContentChange s c).pages)) ∧
    (contentsOk s.pages → contentsOk ((handlePageSwitch s i).pages)) :=
  ⟨contentsOk_load now s, rfl,
    fun h => contentsOk_addNewPage h,
    fun h => contentsOk_deletePage h,
    fun h => contentsOk_updatePageTitle h,
    fun h => contentsOk_handleEditorContentChange h,
    fun h => contentsOk_handlePageSwitch h⟩

/-- Witness: the C9 theorem at a concrete state. -/
theorem c9_contents_always_arrays_witness :
    contentsOk ((loadFromLocalStorage 2 c2State).state.pages) ∧
    ((createNewPage 2 "x" : Page Nat).content.isArr = true) ∧
    contentsOk ((addNewPage 2 c2State).pages) ∧
    contentsOk ((deletePage c2State "1").pages) ∧
    contentsOk ((updatePageTitle c2State "1" "x").pages) ∧
    contentsOk ((handleEditorContentChange c2State [4]).pages) ∧
    contentsOk ((handlePageSwitch c2State "2").pages) := by
  have h := c9_contents_always_arrays 2 c2State "1" "x" [4]
  exact ⟨h.1, h.2.1, h.2.2.1 (by decide), h.2.2.2.1 (by decide),
    h.2.2.2.2.1 (by decide), h.2.2.2.2.2.1 (by decide),
    h.2.2.2.2.2.2 (by decide)⟩

/-- The callback `handleEditorContentChange` either leaves the state unchanged or
replaces the selected page's content in place. -/
theorem handleEditorContentChange_cases {β : Type} (s : AppState β) (c : List β) :
    handleEditorContentChange s c = s ∨
    ∃ cid, s.currentPageId = some cid ∧
      handleEditorContentChange s c =
        { s with pages := s.pages.map fun page : Page β =>
            if page.id = cid then { page with content := CVal.arr c }
            else page } := by
  cases hcur : s.currentPageId with
  | none => exact Or.inl (by rw [handleEditorContentChange]; rw [hcur])
  | some cid =>
      by_cases hg : cid = "" ∨ s.isLoading = true
      · refine Or.inl ?_
        rw [handleEditorContentChange]
        simp only [hcur, if_pos hg]
      · refine Or.inr ⟨cid, rfl, ?_⟩
        rw [handleEditorContentChange]
        simp only [hcur, if_neg hg]

/-- C10: editing content touches at most the selected page's content
field — the selection, the storage slot, the loading flag, all ids, all
titles, and every non-selected page are untouched — and it is a complete
no-op when no page is selected or a load is in progress. -/
theorem c10_contentChange_frame {β : Type} (s : AppState β) (c : List β) :
    (s.currentPageId = none → handleEditorContentChange s c = s) ∧
    (s.isLoading = true → handleEditorContentChange s c = s) ∧
    (handleEditorContentChange s c).currentPageId = s.currentPageId ∧
    (handleEditorContentChange s c).storage = s.storage ∧
    (handleEditorContentChange s c).isLoading = s.isLoading ∧
    (handleEditorContentChange s c).pages.map Page.id = s.pages.map Page.id ∧
    (handleEditorContentChange s c).pages.map Page.title =
      s.pages.map Page.title ∧
    (∀ p ∈ s.pages, s.currentPageId ≠ some p.id →
      p ∈ (handleEditorContentChange s c).pages) := by
  have hnone : s.currentPageId = none → handleEditorContentChange s c = s := by
    intro h
    rw [handleEditorContentChange]; rw [h]
  have hload : s.isLoading = true → handleEditorContentChange s c = s := by
    intro h
    cases hcur : s.currentPageId with
    | none => exact hnone hcur
    | some cid =>
        rw [handleEditorContentChange]
        simp only [hcur, if_pos (Or.inr h)]
  refine ⟨hnone, hload, ?_⟩
  rcases handleEditorContentChange_cases s c with heq | ⟨cid, hcur, heq⟩
  · rw [heq]
    exact ⟨rfl, rfl, rfl, rfl, rfl, fun p hp _ => hp⟩
  · rw [heq]
    refine ⟨rfl, rfl, rfl, ?_, ?_, ?_⟩
    · rw [List.map_map]
      refine List.map_congr_left ?_
      intro a _
      by_cases h : a.id = cid <;> simp [h]
    · rw [List.map_map]
      refine List.map_congr_left ?_
      intro a _
      by_cases h : a.id = cid <;> simp [h]
    · intro p hp hne
      have hpne : ¬p.id = cid := by
        intro h
        exact hne (by rw [hcur, h])
      exact List.mem_map.mpr ⟨p, hp, by simp [hpne]⟩

/-- Witness: the C10 theorem at concrete states — a state with a
selection, one with no selection, and one mid-load. -/
theorem c10_contentChange_frame_witness :
    (handleEditorContentChange demoState [9] = demoState) ∧
    (handleEditorContentChange { c2State with isLoading := true } [9] =
      { c2State with isLoading := true }) ∧
    (handleEditorContentChange c2State [9]).currentPageId =
      c2State.currentPageId ∧
    (handleEditorContentChange c2State [9]).storage = c2State.storage ∧
    (handleEditorContentChange c2State [9]).pages.map Page.id =
      c2State.pages.map Page.id ∧
    (handleEditorContentChange c2State [9]).pages.map Page.title =
      c2State.pages.map Page.title ∧
    pageTwo ∈ (handleEditorContentChange c2State [9]).pages := by
  have h := c10_contentChange_frame c2State [9]
  exact ⟨(c10_contentChange_frame demoState [9]).1 rfl,
    (c10_contentChange_frame { c2State with isLoading := true } [9]).2.1 rfl,
    h.2.2.1, h.2.2.2.1, h.2.2.2.2.2.1, h.2.2.2.2.2.2.1,
    h.2.2.2.2.2.2.2 pageTwo (by decide) (by decide)⟩

end NoteClone
